import Mathlib

/-!
Verification development for the hubcloud extractor service
(`railway_service.py` and the edge proxy `api/proxy.py` / `api/api_proxy.py`).

The Python source is shallowly embedded: pure helpers become Lean functions,
the network and browser-automation libraries are absorbed into an explicit
`World` of per-URL responses, and the module-level engine flag and on-disk
cache become explicit state threaded through the pipeline.  Regular
expressions used by the source are implemented as direct scanners with
Python `re.search` leftmost-match semantics.  CPython's binary floating
point in `parse_size_from_text` is modelled with exact integer arithmetic
(`int(val * mult)` for a non-negative decimal literal `val` equals
truncating division `(n * mult) / 10^k`); the two agree on all inputs
whose exact value is representable, in particular on every input
exercised below.  `base64.b64decode` is modelled for inputs whose padding
(if any) is a single trailing block, and `.decode("utf-8", errors="ignore")`
as a UTF-8 decoder that skips undecodable bytes.
-/

deriving instance DecidableEq for Except

/-- Python's `needle == hay[:len(needle)]`: `needle` is a prefix of `hay`. -/
def leadsWith : List Char → List Char → Bool
  | [], _ => true
  | _ :: _, [] => false
  | a :: as, b :: bs => a = b && leadsWith as bs

/-- Contiguous-substring test on character lists (Python's `needle in hay`). -/
def listSub : List Char → List Char → Bool
  | n, [] => n.isEmpty
  | n, c :: cs => leadsWith n (c :: cs) || listSub n cs

/-- Python's `sub in hay` on strings. -/
def strContains (hay sub : String) : Bool :=
  listSub sub.toList hay.toList

/-- The ASCII whitespace recognised by the model (Python's `\s` / `str.strip`
whitespace, restricted to ASCII). -/
def isSpaceChar (c : Char) : Bool :=
  c = ' ' || c = '\t' || c = '\n' || c = '\r' || c = Char.ofNat 11 || c = Char.ofNat 12

/-- Python `str.strip()` (ASCII whitespace). -/
def pyStrip (s : String) : String :=
  ⟨((s.toList.dropWhile isSpaceChar).reverse.dropWhile isSpaceChar).reverse⟩

/-- Truthiness of an `Optional[str]` in Python: `None` and `""` are falsy. -/
def pyTruthy (x : Option String) : Bool :=
  match x with
  | some s => decide (s ≠ "")
  | none => false

/-- Python `x or y` on two `Optional[str]` values. -/
def pyOrOpt (x y : Option String) : Option String :=
  if pyTruthy x then x else y

/-- Python `x or ""` on an `Optional[str]` value. -/
def pyOrEmpty (x : Option String) : String :=
  x.getD ""

/-- Character class `[\d.,]` of the size regex. -/
def sizeNumChar (c : Char) : Bool :=
  c.isDigit || c = '.' || c = ','

/-- ASCII lowercasing for the case-insensitive unit alternation. -/
def lowerChar (c : Char) : Char :=
  if c.isUpper then Char.ofNat (c.toNat + 32) else c

/-- The alternation `(GB|MB|KB|B)` with `re.IGNORECASE`, tried at the head of
the list in the regex's left-to-right order; returns the canonical
(uppercased) unit, i.e. `m.group(2).upper()`. -/
def unitAt (cs : List Char) : Option String :=
  match cs with
  | c1 :: c2 :: _ =>
    if lowerChar c1 = 'g' && lowerChar c2 = 'b' then some "GB"
    else if lowerChar c1 = 'm' && lowerChar c2 = 'b' then some "MB"
    else if lowerChar c1 = 'k' && lowerChar c2 = 'b' then some "KB"
    else if lowerChar c1 = 'b' then some "B"
    else none
  | [c1] => if lowerChar c1 = 'b' then some "B" else none
  | [] => none

/-- `re.search(r'([\d\.,]+)\s*(GB|MB|KB|B)', text, re.IGNORECASE)`: scan for
the leftmost position where the pattern matches; the greedy runs need no
backtracking because no character of `[\d.,]` or `\s` can begin a unit.
Returns `(group 1, group 2 uppercased)`. -/
def sizeScan : List Char → Option (List Char × String)
  | [] => none
  | c :: cs =>
    if sizeNumChar c then
      let run := (c :: cs).takeWhile sizeNumChar
      let rest := ((c :: cs).dropWhile sizeNumChar).dropWhile isSpaceChar
      match unitAt rest with
      | some u => some (run, u)
      | none => sizeScan cs
    else sizeScan cs

/-- Digit-string to number (the characters are guaranteed to be digits). -/
def digitsToNat (cs : List Char) : Nat :=
  cs.foldl (fun n c => n * 10 + (c.toNat - 48)) 0

/-- CPython `float(num)` after `num = group(1).replace(",", "")`, returned as
an exact pair (numerator, number of fractional digits): accepted iff the
string has at least one digit and at most one dot. -/
def pyFloatOfSizeChars (cs : List Char) : Option (Nat × Nat) :=
  let cs := cs.filter (fun c => c ≠ ',')
  if cs.any Char.isDigit && (cs.filter (fun c => c = '.')).length ≤ 1 then
    let intPart := cs.takeWhile (fun c => c ≠ '.')
    let frac := (cs.dropWhile (fun c => c ≠ '.')).drop 1
    some (digitsToNat (intPart ++ frac), frac.length)
  else none

/-- `parse_size_from_text` of `railway_service.py`: find the size pattern,
parse the number, scale by the binary unit multiplier and truncate to an
integer byte count; `None` when nothing parses. -/
def parseSizeFromText (s : String) : Option Nat :=
  if s = "" then none
  else
    match sizeScan s.toList with
    | none => none
    | some (numCs, u) =>
      match pyFloatOfSizeChars numCs with
      | none => none
      | some (n, k) =>
        let mult : Nat :=
          if u = "B" then 1
          else if u = "KB" then 1024
          else if u = "MB" then 1048576
          else 1073741824
        some ((n * mult) / 10 ^ k)

/-- The base64 alphabet plus padding, i.e. the regex class `[A-Za-z0-9+/=]`. -/
def b64Char (c : Char) : Bool :=
  c.isAlpha || c.isDigit || c = '+' || c = '/' || c = '='

/-- Value of a base64 alphabet character. -/
def b64Val (c : Char) : Option Nat :=
  if c.isUpper then some (c.toNat - 65)
  else if c.isLower then some (c.toNat - 97 + 26)
  else if c.isDigit then some (c.toNat - 48 + 52)
  else if c = '+' then some 62
  else if c = '/' then some 63
  else none

/-- Decode complete sextet quads into bytes. -/
def quadsToBytes : List Nat → List Nat
  | a :: b :: c :: d :: rest =>
    (a * 4 + b / 16) :: ((b % 16) * 16 + c / 4) :: ((c % 4) * 64 + d) :: quadsToBytes rest
  | _ => []

/-- Map characters through `b64Val`, failing on any character outside the
alphabet (e.g. an interior padding sign). -/
def b64Sextets : List Char → Except Unit (List Nat)
  | [] => .ok []
  | c :: cs =>
    match b64Val c, b64Sextets cs with
    | some v, .ok vs => .ok (v :: vs)
    | _, _ => .error ()

/-- `base64.b64decode` for an input over `[A-Za-z0-9+/=]` whose padding, if
any, is a single trailing block: total length must be a multiple of 4, at
most two trailing padding signs, none elsewhere.  (CPython's lenient
scanner additionally accepts exotic interior-padding inputs; none arise
from the call site, which pads a token to a multiple-of-4 length.) -/
def b64decode (cs : List Char) : Except Unit (List Nat) :=
  if cs.length % 4 ≠ 0 then .error ()
  else
    let rev := cs.reverse
    let pads := (rev.takeWhile (fun c => c = '=')).length
    let body := (rev.dropWhile (fun c => c = '=')).reverse
    if pads > 2 then .error ()
    else
      match b64Sextets body with
      | .error _ => .error ()
      | .ok vs =>
        let full := quadsToBytes vs
        let tail : List Nat :=
          match vs.drop (vs.length / 4 * 4) with
          | [a, b] => [a * 4 + b / 16]
          | [a, b, c] => [a * 4 + b / 16, (b % 16) * 16 + c / 4]
          | _ => []
        .ok (full ++ tail)

/-- Continuation-byte range check for UTF-8. -/
def utf8ContOk (lo hi b : Nat) : Bool :=
  lo ≤ b && b ≤ hi

/-- Fuel-driven worker for `utf8DecodeIgnore`; every step consumes at least
one byte, so fuel equal to the list length suffices. -/
def utf8DecodeGo : Nat → List Nat → List Char
  | 0, _ => []
  | _ + 1, [] => []
  | fuel + 1, b1 :: rest =>
    if b1 < 128 then Char.ofNat b1 :: utf8DecodeGo fuel rest
    else if 194 ≤ b1 && b1 ≤ 223 then
      match rest with
      | b2 :: rest2 =>
        if utf8ContOk 128 191 b2 then
          Char.ofNat ((b1 - 192) * 64 + (b2 - 128)) :: utf8DecodeGo fuel rest2
        else utf8DecodeGo fuel rest
      | [] => []
    else if 224 ≤ b1 && b1 ≤ 239 then
      match rest with
      | b2 :: b3 :: rest3 =>
        if utf8ContOk (if b1 = 224 then 160 else 128) (if b1 = 237 then 159 else 191) b2
            && utf8ContOk 128 191 b3 then
          Char.ofNat ((b1 - 224) * 4096 + (b2 - 128) * 64 + (b3 - 128)) :: utf8DecodeGo fuel rest3
        else utf8DecodeGo fuel rest
      | _ => utf8DecodeGo fuel rest
    else if 240 ≤ b1 && b1 ≤ 244 then
      match rest with
      | b2 :: b3 :: b4 :: rest4 =>
        if utf8ContOk (if b1 = 240 then 144 else 128) (if b1 = 244 then 143 else 191) b2
            && utf8ContOk 128 191 b3 && utf8ContOk 128 191 b4 then
          Char.ofNat ((b1 - 240) * 262144 + (b2 - 128) * 4096 + (b3 - 128) * 64 + (b4 - 128))
            :: utf8DecodeGo fuel rest4
        else utf8DecodeGo fuel rest
      | _ => utf8DecodeGo fuel rest
    else utf8DecodeGo fuel rest

/-- `bytes.decode("utf-8", errors="ignore")`: decode well-formed UTF-8
sequences (rejecting overlongs and surrogates as CPython does) and skip
bytes that do not begin a valid sequence. -/
def utf8DecodeIgnore (l : List Nat) : List Char :=
  utf8DecodeGo l.length l

/-- The token-introducing alternation `(?:/foo/|/re2/|[?&]r=|id=)` of
`normalize_telegram`'s regex, tried at the head of the list in the regex's
order; returns the length of the matched marker. -/
def teleMarkerLen (cs : List Char) : Option Nat :=
  if leadsWith "/foo/".toList cs then some 5
  else if leadsWith "/re2/".toList cs then some 5
  else
    match cs with
    | c :: rest =>
      if (c = '?' || c = '&') && leadsWith "r=".toList rest then some 3
      else if leadsWith "id=".toList cs then some 3
      else none
    | [] => none

/-- `re.search(r'(?:/foo/|/re2/|[?&]r=|id=)([A-Za-z0-9+/=]+)', href)`:
leftmost position where a marker is followed by at least one alphabet
character; returns group 1. -/
def teleScan : List Char → Option (List Char)
  | [] => none
  | c :: cs =>
    match teleMarkerLen (c :: cs) with
    | some k =>
      let run := ((c :: cs).drop k).takeWhile b64Char
      if run.isEmpty then teleScan cs else some run
    | none => teleScan cs

/-- `normalize_telegram` of `railway_service.py`: extract a token after one
of the marker patterns, pad it with `=` to a multiple-of-4 length,
base64-decode it (keeping the input href when decoding fails).
`urllib.parse.unquote` on the token is the identity since the token's
character class contains no percent sign. -/
def normalizeTelegram (href : Option String) : Option String :=
  match href with
  | none => none
  | some h =>
    if h = "" then none
    else
      match teleScan h.toList with
      | none => some h
      | some tok =>
        let padded := tok ++ List.replicate ((4 - tok.length % 4) % 4) '='
        match b64decode padded with
        | .error _ => some h
        | .ok bytes => some ⟨utf8DecodeIgnore bytes⟩

/-- Generic leftmost scan for a literal followed by a non-empty greedy run of
class characters; returns the run.  Implements `re.search` for patterns of
the shape `lit([cls]+)` (and, with the literal included in the group, for
`(lit[cls]+)`). -/
def findAfterLit (lit : List Char) (cls : Char → Bool) : List Char → Option (List Char)
  | [] => none
  | c :: cs =>
    if leadsWith lit (c :: cs) then
      let run := ((c :: cs).drop lit.length).takeWhile cls
      if run.isEmpty then findAfterLit lit cls cs else some run
    else findAfterLit lit cls cs

/-- `re.search(r'/u/([A-Za-z0-9]+)', href)` group 1 (PixelServer token). -/
def findPixelTok (h : String) : Option String :=
  (findAfterLit "/u/".toList (fun c => c.isAlpha || c.isDigit) h.toList).map
    fun run => ⟨run⟩

/-- Characters allowed by `[^\s"\']` (requests-side t.me extraction). -/
def tmeChar1 (c : Char) : Bool :=
  !(isSpaceChar c || c = '"' || c.toNat = 39)

/-- Characters allowed by `[^\s]` (browser-side t.me extraction). -/
def tmeChar2 (c : Char) : Bool :=
  !(isSpaceChar c)

/-- `re.search(r'(https://t\.me/[^\s"\']+)', href)` group 1. -/
def findTme1 (h : String) : Option String :=
  (findAfterLit "https://t.me/".toList tmeChar1 h.toList).map
    fun run => "https://t.me/" ++ (⟨run⟩ : String)

/-- `re.search(r'(https://t\.me/[^\s]+)', href)` group 1. -/
def findTme2 (h : String) : Option String :=
  (findAfterLit "https://t.me/".toList tmeChar2 h.toList).map
    fun run => "https://t.me/" ++ (⟨run⟩ : String)

/-- `re.search(r'https://gamerxyt\.com/\?r=[A-Za-z0-9+/=]+', text)` group 0. -/
def findGamerUrl (t : String) : Option String :=
  (findAfterLit "https://gamerxyt.com/?r=".toList b64Char t.toList).map
    fun run => "https://gamerxyt.com/?r=" ++ (⟨run⟩ : String)

/-- Earliest index of `lit` in the list such that no newline occurs before it
(implementing the non-greedy `.*?` between `https://` and the AMP marker). -/
def findLitNoNl (lit : List Char) : List Char → Option Nat
  | [] => none
  | c :: cs =>
    if leadsWith lit (c :: cs) then some 0
    else if c = '\n' then none
    else (findLitNoNl lit cs).map (· + 1)

/-- `re.sub(r'https://.*?ampproject\.org/c/s/', 'https://', s)`: replace every
leftmost non-overlapping match (with the minimal `.*?` extension) by
`https://`, continuing after each match. -/
def ampStripGo (l : List Char) : List Char :=
  match l with
  | [] => []
  | c :: cs =>
    if leadsWith "https://".toList (c :: cs) then
      match findLitNoNl "ampproject.org/c/s/".toList ((c :: cs).drop 8) with
      | some j => "https://".toList ++ ampStripGo (((c :: cs).drop 8).drop (j + 19))
      | none => c :: ampStripGo cs
    else c :: ampStripGo cs
termination_by l.length
decreasing_by
  · simp [List.length_drop]
    omega
  · simp
  · simp

/-- The AMP-proxy prefix rewrite applied to a string. -/
def ampStrip (s : String) : String :=
  ⟨ampStripGo s.toList⟩

/-- Lookup in an insertion-ordered association list (Python `dict` access). -/
def dictGet {α : Type} : List (String × α) → String → Option α
  | [], _ => none
  | (k', v) :: rest, k => if k' = k then some v else dictGet rest k

/-- Assignment on an insertion-ordered association list (Python
`d[k] = v`): replace in place when the key exists, else append. -/
def dictSet {α : Type} : List (String × α) → String → α → List (String × α)
  | [], k, v => [(k, v)]
  | (k', v') :: rest, k, v =>
    if k' = k then (k, v) :: rest else (k', v') :: dictSet rest k v

theorem dictGet_dictSet_self {α : Type} (m : List (String × α)) (k : String) (v : α) :
    dictGet (dictSet m k v) k = some v := by
  induction m with
  | nil => simp [dictGet, dictSet]
  | cons hd tl ih =>
    obtain ⟨k', v'⟩ := hd
    by_cases h : k' = k
    · simp [dictGet, dictSet, h]
    · simp [dictGet, dictSet, h, ih]

theorem dictGet_dictSet_ne {α : Type} (m : List (String × α)) (k k' : String) (v : α)
    (h : k ≠ k') : dictGet (dictSet m k v) k' = dictGet m k' := by
  induction m with
  | nil => simp [dictGet, dictSet, h]
  | cons hd tl ih =>
    obtain ⟨k₀, v₀⟩ := hd
    by_cases h0 : k₀ = k
    · subst h0
      simp [dictGet, dictSet, h]
    · simp [dictGet, dictSet, h0, ih]

/-- One anchor from `soup.find_all("a", class_="btn")`: stripped text and the
(possibly missing) `href` attribute. -/
abbrev Anchor : Type := String × Option String

/-- The links mapping: an insertion-ordered association list from label to
href, mirroring a Python `dict` (in particular its iteration order and
last-seen-wins reassignment). -/
abbrev LinksMap : Type := List (String × String)

/-- `PixelServer` href rewrite shared verbatim by both classifiers. -/
def pixelRewrite (h : String) : String :=
  match findPixelTok h with
  | some tok => "https://pixeldrain.com/api/file/" ++ tok ++ "?download"
  | none => h

/-- The `Telegram` href rewrite of `extract_links_requests`: strip the
AMP-proxy prefix when present, then take the `t.me` pattern match
(terminated by whitespace or quotes) or keep the href. -/
def telegramRewriteReq (h : String) : String :=
  let h := if strContains h "ampproject.org" then ampStrip h else h
  (findTme1 h).getD h

/-- The `Telegram` href rewrite of `extract_buttons_with_browser`: strip the
AMP-proxy prefix when present; keep an href already starting with
`https://t.me/`, else take the `t.me` pattern match (terminated by
whitespace only) or keep the href. -/
def telegramRewriteBrow (h : String) : String :=
  let h := if strContains h "ampproject.org" then ampStrip h else h
  if leadsWith "https://t.me/".toList h.toList then h
  else (findTme2 h).getD h

/-- One anchor of the `extract_links_requests` classification chain. -/
def classifyReqStep (m : LinksMap) (a : Anchor) : LinksMap :=
  let h := a.2.getD ""
  if h = "" then m
  else if strContains a.1 "FSLv2" then dictSet m "FSLv2" h
  else if strContains a.1 "FSL Server" || (strContains a.1 "FSL" && !strContains a.1 "FSLv2") then
    dictSet m "FSL" h
  else if strContains a.1 "10Gbps" then dictSet m "10Gbps" h
  else if strContains a.1 "PixelServer" then dictSet m "PixelServer" (pixelRewrite h)
  else if strContains a.1 "Telegram" then dictSet m "Telegram" (telegramRewriteReq h)
  else m

/-- The anchor loop of `extract_links_requests`, from a given accumulator. -/
def classifyAnchorsReqFrom (m : LinksMap) : List Anchor → LinksMap
  | [] => m
  | a :: as => classifyAnchorsReqFrom (classifyReqStep m a) as

/-- The full anchor classification of `extract_links_requests`. -/
def classifyAnchorsReq (as : List Anchor) : LinksMap :=
  classifyAnchorsReqFrom [] as

/-- Outcome of the second page opened for a `10Gbps` anchor by
`extract_buttons_with_browser`: navigation failure (the exception
propagates out of the function), no `a#vd` button within the bounded wait
(the original href is kept), or the button's href attribute. -/
inductive TenOutcome : Type
  | navFail : TenOutcome
  | noButton : TenOutcome
  | vdHref : String → TenOutcome
deriving DecidableEq

/-- One anchor of the `extract_buttons_with_browser` classification chain,
with the second-page resolution for `10Gbps` given by the oracle `o`. -/
def classifyBrowStep (o : String → TenOutcome) (m : LinksMap) (a : Anchor) :
    Except Unit LinksMap :=
  let h := a.2.getD ""
  if h = "" then .ok m
  else if strContains a.1 "FSLv2" then .ok (dictSet m "FSLv2" h)
  else if strContains a.1 "FSL Server" then .ok (dictSet m "FSL" h)
  else if strContains a.1 "10Gbps" then
    match o h with
    | .navFail => .error ()
    | .noButton => .ok (dictSet m "10Gbps" h)
    | .vdHref v => .ok (dictSet m "10Gbps" v)
  else if strContains a.1 "PixelServer" then .ok (dictSet m "PixelServer" (pixelRewrite h))
  else if strContains a.1 "Telegram" then .ok (dictSet m "Telegram" (telegramRewriteBrow h))
  else .ok m

/-- The anchor loop of `extract_buttons_with_browser`, from a given
accumulator; a second-page navigation failure aborts the whole loop. -/
def classifyAnchorsBrowFrom (o : String → TenOutcome) (m : LinksMap) :
    List Anchor → Except Unit LinksMap
  | [] => .ok m
  | a :: as =>
    match classifyBrowStep o m a with
    | .error e => .error e
    | .ok m' => classifyAnchorsBrowFrom o m' as

/-- The full anchor classification of `extract_buttons_with_browser`. -/
def classifyAnchorsBrow (o : String → TenOutcome) (as : List Anchor) : Except Unit LinksMap :=
  classifyAnchorsBrowFrom o [] as

/-- The element selections made by `extract_metadata` on the fetched page
(`.card-header`, `title`, `li:nth-child(1) i`, `li:nth-child(2) i`),
each `None` when the selector finds no element. -/
structure MetaSel : Type where
  cardHeader : Option String
  titleTag : Option String
  li1 : Option String
  li2 : Option String
deriving DecidableEq

/-- Outcome of the browser page opened by `extract_buttons_with_browser`:
navigation failure (the exception propagates), selector timeout with no
`a.btn` elements (empty links returned), or the anchors of the rendered
DOM. -/
inductive BrowsedPage : Type
  | navFail : BrowsedPage
  | noButtons : BrowsedPage
  | anchorsFound : List Anchor → BrowsedPage

/-- The external network/browser behaviour, one response per URL.  An
`Except.error` models a raised `requests`/`httpx`/Playwright exception or a
non-2xx status rejected by `raise_for_status`. -/
structure World : Type where
  head : String → Except Unit (Option String × Option String × Nat)
  meta : String → Except Unit MetaSel
  linksPage : String → Except Unit (List Anchor)
  browserNav : String → BrowsedPage
  ten : String → TenOutcome
  gamerR : String → Except Unit (String × String)
  gamerB : String → Except Unit (String × String)

/-- The headers dictionary returned by `head_request` (content type, content
length, status code rendered as text; all `None` on any exception). -/
structure HeadOut : Type where
  contentType : Option String
  contentLength : Option String
  statusCode : Option String
deriving DecidableEq

/-- `head_request`: HEAD probe with every exception absorbed into `None`s. -/
def headRequest (w : World) (url : String) : HeadOut :=
  match w.head url with
  | .error _ => ⟨none, none, none⟩
  | .ok (ct, cl, code) => ⟨ct, cl, some (Nat.repr code)⟩

/-- The dictionary returned by `extract_metadata` on success. -/
structure MetaOut : Type where
  title : String
  fileSize : String
  fileType : String
deriving DecidableEq

/-- The field assembly of `extract_metadata` from its selections: title
prefers `.card-header` over `title`, with Python `or` falsiness. -/
def metaFields (sel : MetaSel) : MetaOut :=
  ⟨pyOrEmpty (pyOrOpt sel.cardHeader sel.titleTag), pyOrEmpty sel.li1, pyOrEmpty sel.li2⟩

/-- `extract_links_requests`: body fetch with exceptions (including non-2xx)
absorbed into an empty links dict, then the classification chain. -/
def extractLinksRequests (w : World) (url : String) : LinksMap :=
  match w.linksPage url with
  | .error _ => []
  | .ok anchors => classifyAnchorsReq anchors

/-- `extract_buttons_with_browser` after the engine is ensured started: a
navigation failure raises, a selector timeout yields empty links, else
the browser-side classification runs over the rendered anchors. -/
def extractButtonsBrowser (w : World) (url : String) : Except Unit LinksMap :=
  match w.browserNav url with
  | .navFail => .error ()
  | .noButtons => .ok []
  | .anchorsFound as => classifyAnchorsBrow w.ten as

/-- `get_gamerxyt_requests`: follow redirects; return the final URL when it
contains the redirector marker, else the first redirector URL in the body;
`None` on any exception or when nothing matches. -/
def getGamerxytRequests (w : World) (link : String) : Option String :=
  match w.gamerR link with
  | .error _ => none
  | .ok (finalUrl, body) =>
    if strContains finalUrl "gamerxyt.com/?r=" then some finalUrl
    else findGamerUrl body

/-- `get_gamerxyt_with_browser` after `ensure_playwright_started`: strip the
AMP prefix from the start URL, navigate, and inspect the final URL and the
rendered HTML; `None` on any exception or when nothing matches. -/
def getGamerxytBrowser (w : World) (link : String) : Option String :=
  let su := if strContains link "ampproject.org" then ampStrip link else link
  match w.gamerB su with
  | .error _ => none
  | .ok (current, html) =>
    if strContains current "gamerxyt.com/?r=" then some current
    else findGamerUrl html

/-- Counters of the observable external activity of one request: network
fetches issued, engine starts performed, browser page resolutions during
the redirect-resolution step, and browser fallback extractions. -/
structure Trace : Type where
  netCalls : Nat
  engineStarts : Nat
  browserResolves : Nat
  browserExtracts : Nat
deriving DecidableEq

/-- The all-zero trace. -/
def zeroTrace : Trace := ⟨0, 0, 0, 0⟩

/-- Pointwise sum of traces. -/
def traceAdd (a b : Trace) : Trace :=
  ⟨a.netCalls + b.netCalls, a.engineStarts + b.engineStarts,
   a.browserResolves + b.browserResolves, a.browserExtracts + b.browserExtracts⟩

/-- One iteration of the redirect-resolution loop of `process_single_url`
(lines 306-319): accumulator carries the resolved list, the engine-started
flag and the activity trace.  The browser resolution path runs only when
the lightweight fetch yielded nothing and the started flag is set; the
`ensure_playwright_started` call inside `get_gamerxyt_with_browser` is
modelled by the conditional engine-start increment and flag write. -/
def resolveStep (w : World) (acc : List String × Bool × Trace) (kv : String × String) :
    List String × Bool × Trace :=
  let res := acc.1
  let s := acc.2.1
  let tr := acc.2.2
  if kv.2 = "" then acc
  else if strContains kv.2 "ampproject.org" || strContains kv.2 "bloggingvector.shop/foo/"
      || strContains kv.2 "gamerxyt.com" then
    let g := getGamerxytRequests w kv.2
    let tr := { tr with netCalls := tr.netCalls + 1 }
    let step2 : Option String × Bool × Trace :=
      if g.isNone && s then
        (getGamerxytBrowser w kv.2, true,
         { tr with engineStarts := tr.engineStarts + (if s then 0 else 1),
                   browserResolves := tr.browserResolves + 1 })
      else (g, s, tr)
    match normalizeTelegram step2.1 with
    | some hub => if hub = "" then (res, step2.2) else (res ++ [hub], step2.2)
    | none => (res, step2.2)
  else acc

/-- The whole redirect-resolution loop over the links dict, in dict iteration
order. -/
def resolveLinks (w : World) (s : Bool) (links : LinksMap) : List String × Bool × Trace :=
  links.foldl (resolveStep w) ([], s, zeroTrace)

/-- The cached `meta` object of an extraction entry. -/
structure MetaEntry : Type where
  url : String
  title : String
  contentType : String
  contentLength : Option String
deriving DecidableEq

/-- One cache value: `{"meta": ..., "links": ..., "resolved": ...}`. -/
structure Entry : Type where
  meta : MetaEntry
  links : LinksMap
  resolved : List String
deriving DecidableEq

/-- The `meta`/entry assembly of `process_single_url` (lines 321-334):
`content_type` falls back from the HEAD probe to the body-fetch file type
by Python `or`; `content_length` prefers the truthy HEAD header, else the
parsed byte count of the declared file size. -/
def assembleEntry (url : String) (head : HeadOut) (ex : MetaOut) (links : LinksMap)
    (resolved : List String) : Entry :=
  let sizeBytes := if ex.fileSize ≠ "" then parseSizeFromText ex.fileSize else none
  { meta :=
      { url := url
        title := ex.title
        contentType := if pyTruthy head.contentType then head.contentType.getD "" else ex.fileType
        contentLength :=
          if pyTruthy head.contentLength then head.contentLength
          else sizeBytes.map Nat.repr }
    links := links
    resolved := resolved }

/-- The Playwright fallback of `process_single_url` (lines 296-303): when the
requests-based classification found no links, `extract_buttons_with_browser`
first ensures the engine is started (so the flag is set even when the
extraction then fails) and its links replace the empty dict only when
non-empty; its exceptions are absorbed. -/
def fallbackPhase (w : World) (s : Bool) (url : String) (links0 : LinksMap) :
    LinksMap × Bool × Trace :=
  if links0 = ([] : LinksMap) then
    let tr : Trace := ⟨0, if s then 0 else 1, 0, 1⟩
    match extractButtonsBrowser w url with
    | .ok pl => (if pl = ([] : LinksMap) then links0 else pl, true, tr)
    | .error _ => (links0, true, tr)
  else (links0, s, zeroTrace)

/-- The three-probe phase plus fallback, resolution and assembly of
`process_single_url` for a non-cached URL, given a successful metadata
probe; returns the entry, the engine flag and the trace (3 probe fetches
plus the fallback's and resolution's contributions). -/
def runPipelineOk (w : World) (s : Bool) (url : String) (sel : MetaSel) :
    Entry × Bool × Trace :=
  let head := headRequest w url
  let ex := metaFields sel
  let fb := fallbackPhase w s url (extractLinksRequests w url)
  let rv := resolveLinks w fb.2.1 fb.1
  (assembleEntry url head ex fb.1 rv.1, rv.2.1,
   traceAdd ⟨3, 0, 0, 0⟩ (traceAdd fb.2.2 rv.2.2))

/-- The non-cached part of `process_single_url`: the three probes run
(network activity happens for all of them), and a metadata-probe failure
propagates out of `asyncio.gather` — there is no try/except around it. -/
def runPipeline (w : World) (s : Bool) (url : String) :
    Except Unit Entry × Bool × Trace :=
  match w.meta url with
  | .error _ => (.error (), s, ⟨3, 0, 0, 0⟩)
  | .ok sel =>
    let r := runPipelineOk w s url sel
    (.ok r.1, r.2.1, r.2.2)

/-- The error conditions `process_single_url` can raise: `ValueError` on an
empty URL, or a propagated probe exception. -/
inductive PErr : Type
  | invalidInput : PErr
  | probeFailure : PErr
deriving DecidableEq

/-- The on-disk cache (`links_metadata.json`) as a mapping; `load_cache` and
`save_cache` absorb their own I/O failures, so the model passes the mapping
in and out directly. -/
abbrev Cache : Type := List (String × Entry)

/-- Everything observable about one `process_single_url` call: its result
(the one-entry mapping as a key/entry pair, or the raised error), the cache
afterwards, the engine flag afterwards, and the activity trace. -/
structure RunOut : Type where
  result : Except PErr (String × Entry)
  cache : Cache
  started : Bool
  trace : Trace

/-- The cache consultation of `process_single_url` (line 286):
`if not force_refresh and url in cache`. -/
def cacheHit (c : Cache) (url : String) (f : Bool) : Option Entry :=
  if f then none else dictGet c url

/-- `process_single_url` on an already-stripped URL. -/
def processStripped (w : World) (c : Cache) (s : Bool) (url : String) (f : Bool) : RunOut :=
  if url = "" then ⟨.error .invalidInput, c, s, zeroTrace⟩
  else
    match cacheHit c url f with
    | some e => ⟨.ok (url, e), c, s, zeroTrace⟩
    | none =>
      match runPipeline w s url with
      | (.error _, s', tr) => ⟨.error .probeFailure, c, s', tr⟩
      | (.ok entry, s', tr) => ⟨.ok (url, entry), dictSet c url entry, s', tr⟩

/-- `process_single_url`: strip the URL first (line 281), then run. -/
def processSingleUrl (w : World) (c : Cache) (s : Bool) (url : String) (f : Bool) : RunOut :=
  processStripped w c s (pyStrip url) f

/-- The `httpx` exception classes the proxy distinguishes: the fast-forward
`except` clause catches exactly `ConnectError` and `ReadTimeout`; any other
client exception (e.g. `ConnectTimeout`) propagates out of the handler. -/
inductive HxErr : Type
  | connectError : HxErr
  | readTimeout : HxErr
  | otherErr : HxErr
deriving DecidableEq

/-- The compute tier as seen by the edge proxy: the first fast-forward's
outcome, and per-poll-iteration outcomes of the health check and of the
re-issued extraction request (an `Except.error` is any exception,
including a `.json()` failure, caught by the loop's bare `except`). -/
structure PxWorld : Type where
  fast : Except HxErr (Nat × String)
  health : Nat → Except Unit Nat
  retry : Nat → Except Unit (Nat × String)

/-- The synthesized cold-start response: status 202 with the waking body
(and, in the source, a `Retry-After` header). -/
def wakingResp : Nat × String := (202, "waking")

/-- The bounded poll-and-retry loop of `proxy_get` (`wait=true`): on each
iteration poll `/health`; on the first 200, re-issue the extraction and
relay its status and body verbatim; any exception in the iteration is
swallowed and the loop continues; when the budget runs out, fall back to
the 202 waking response. -/
def waitLoop (w : PxWorld) : Nat → Nat → Nat × String
  | _, 0 => wakingResp
  | i, fuel + 1 =>
    match w.health i with
    | .ok code =>
      if code = 200 then
        match w.retry i with
        | .ok rb => rb
        | .error _ => waitLoop w (i + 1) fuel
      else waitLoop w (i + 1) fuel
    | .error _ => waitLoop w (i + 1) fuel

/-- The tail of `proxy_get` after an unsuccessful fast forward: fire the
best-effort wake (its failures are ignored and do not affect the result),
then either run the bounded wait loop or immediately return the 202
waking response. -/
def afterFast (w : PxWorld) (maxIter : Nat) (wait : Bool) : Except HxErr (Nat × String) :=
  if wait then .ok (waitLoop w 0 maxIter) else .ok wakingResp

/-- `proxy_get` of `api/proxy.py` (and identically `api/api_proxy.py`): fast
forward with an 8s timeout, catching only `ConnectError`/`ReadTimeout`;
relay a 200 verbatim; anything else goes through wake and the waking
protocol.  `maxIter` is `MAX_BLOCK_WAIT` divided by the 2-second poll
interval. -/
def proxyGet (w : PxWorld) (maxIter : Nat) (wait : Bool) : Except HxErr (Nat × String) :=
  match w.fast with
  | .error .connectError => afterFast w maxIter wait
  | .error .readTimeout => afterFast w maxIter wait
  | .error .otherErr => .error .otherErr
  | .ok (code, body) =>
    if code = 200 then .ok (200, body) else afterFast w maxIter wait

/-- State of the `ensure_playwright_started` race model: the module-level
`started` flag, the number of browser engine instances created by
`chromium.launch`, and each in-flight caller's position.  Positions: 0 =
about to check the flag; 1 = past the check, about to await
`async_playwright().start()`; 2 = about to await `chromium.launch`; 3 =
about to write the state dict (no awaits inside); 4 = returned. -/
structure EnsSys : Type where
  started : Bool
  instances : Nat
  pcs : List Nat
deriving DecidableEq

/-- One atomic step (the code between two awaits) of caller `i`. -/
def ensStep (sys : EnsSys) (i : Nat) : EnsSys :=
  match sys.pcs.get? i with
  | none => sys
  | some pc =>
    if pc = 0 then
      if sys.started then { sys with pcs := sys.pcs.set i 4 }
      else { sys with pcs := sys.pcs.set i 1 }
    else if pc = 1 then { sys with pcs := sys.pcs.set i 2 }
    else if pc = 2 then { sys with pcs := sys.pcs.set i 3, instances := sys.instances + 1 }
    else if pc = 3 then { sys with pcs := sys.pcs.set i 4, started := true }
    else sys

/-- Run a cooperative schedule (a list of caller indices) over the system. -/
def ensRun (sys : EnsSys) (sched : List Nat) : EnsSys :=
  sched.foldl ensStep sys

/-- Initial state with `n` concurrent callers and the engine not started. -/
def ensInit (n : Nat) : EnsSys := ⟨false, 0, List.replicate n 0⟩

/-- A world in which every probe fails except the metadata fetch, which
finds an empty page; the browser fallback renders no buttons. -/
def wQuiet : World :=
  { head := fun _ => .error ()
    meta := fun _ => .ok ⟨none, none, none, none⟩
    linksPage := fun _ => .ok []
    browserNav := fun _ => .noButtons
    ten := fun _ => .noButton
    gamerR := fun _ => .error ()
    gamerB := fun _ => .error () }

/-- A world whose metadata probe raises (network error, timeout or non-2xx
status via `raise_for_status`) while the other probes succeed. -/
def wMetaFail : World := { wQuiet with meta := fun _ => .error () }

/-- A world whose HEAD probe raises while the body fetches succeed. -/
def wHeadFail : World :=
  { wQuiet with
    linksPage := fun _ => .ok [("FSLv2 x", some "http://a")]
    meta := fun _ => .ok ⟨some "Title", some "T2", some "1.5 GB", some "video/mp4"⟩ }

/-- A world whose link-fetch probe raises while HEAD and metadata succeed. -/
def wLinksFail : World :=
  { wQuiet with
    head := fun _ => .ok (some "text/html", some "999", 200)
    linksPage := fun _ => .error () }

/-- C6: `parse_size_from_text` maps `"1.5 GB"` to 1610612736, `"500 KB"` to
512000, `"10B"` to 10 and unrecognisable text to `None`; units B/KB/MB/GB
are binary multiples accepted case-insensitively, and the number may use
comma or decimal separators. -/
theorem parse_size_claimed_values :
    parseSizeFromText "1.5 GB" = some 1610612736
    ∧ parseSizeFromText "500 KB" = some 512000
    ∧ parseSizeFromText "10B" = some 10
    ∧ parseSizeFromText "no recognizable size here" = none
    ∧ parseSizeFromText "" = none
    ∧ parseSizeFromText "1.5 gb" = some 1610612736
    ∧ parseSizeFromText "500 kb" = some 512000
    ∧ parseSizeFromText "2 MB" = some 2097152
    ∧ parseSizeFromText "2 mb" = some 2097152
    ∧ parseSizeFromText "1,024 KB" = some 1048576
    ∧ parseSizeFromText "0.5 GB" = some 536870912 :=
  ⟨rfl, rfl, rfl, rfl, rfl, rfl, rfl, rfl, rfl, rfl, rfl⟩

/-- C1: the HEAD probe and the link-fetch probe do fail soft, but a failure
of the full-body metadata probe propagates out of `process_single_url`
(`extract_metadata` has no try/except and `asyncio.gather` is called
without `return_exceptions`), leaving the cache unwritten after all three
probes issued network activity. -/
theorem metadata_probe_failure_raises :
    (processSingleUrl wMetaFail [] false "http://x" false).result = .error .probeFailure
    ∧ (processSingleUrl wMetaFail [] false "http://x" false).cache = []
    ∧ (processSingleUrl wMetaFail [] false "http://x" false).trace.netCalls = 3
    ∧ (processSingleUrl wHeadFail [] false "u" false).result =
        .ok ("u", ⟨⟨"u", "Title", "video/mp4", some "1610612736"⟩, [("FSLv2", "http://a")], []⟩)
    ∧ (processSingleUrl wLinksFail [] false "u" false).result =
        .ok ("u", ⟨⟨"u", "", "text/html", some "999"⟩, [], []⟩) :=
  ⟨rfl, rfl, rfl, rfl, rfl⟩

/-- C5: under the interleaving in which both callers pass the `started`
check before either reaches the state write, `ensure_playwright_started`
creates two browser engine instances; a sequential schedule creates
exactly one.  (Both schedules leave every caller returned and the flag
set.) -/
theorem concurrent_start_creates_two_instances :
    ensRun (ensInit 2) [0, 1, 0, 0, 0, 1, 1, 1] = ⟨true, 2, [4, 4]⟩
    ∧ ensRun (ensInit 2) [0, 0, 0, 0, 1] = ⟨true, 1, [4, 4]⟩
    ∧ (2 : Nat) ≠ 1 :=
  ⟨rfl, rfl, by decide⟩

/-- A world whose link fetch classifies one Telegram button pointing at the
redirector, whose lightweight redirect resolution lands on a
`gamerxyt.com/?r=` URL carrying the base64 of `https://t.me/channel/123`. -/
def wTele : World :=
  { wQuiet with
    linksPage := fun _ => .ok [("Telegram", some "https://gamerxyt.com/hub?x=1")]
    gamerR := fun _ => .ok ("https://gamerxyt.com/?r=aHR0cHM6Ly90Lm1lL2NoYW5uZWwvMTIz", "") }

/-- C7: a token after `?r=` is padded and base64-decoded into the final
mirror URL — the claimed example decodes to exactly
`https://t.me/channel/123`, end-to-end through `process_single_url`'s
resolution loop into `resolved`; with no marker pattern, or when decoding
fails (here: 5 data characters cannot form a base64 string), the
pre-decode URL is kept. -/
theorem telegram_token_decode :
    normalizeTelegram (some "https://gamerxyt.com/?r=aHR0cHM6Ly90Lm1lL2NoYW5uZWwvMTIz")
      = some "https://t.me/channel/123"
    ∧ (processSingleUrl wTele [] false "https://hub.example/f" false).result =
        .ok ("https://hub.example/f",
          ⟨⟨"https://hub.example/f", "", "", none⟩,
           [("Telegram", "https://gamerxyt.com/hub?x=1")], ["https://t.me/channel/123"]⟩)
    ∧ normalizeTelegram (some "https://mirror.example/a") = some "https://mirror.example/a"
    ∧ normalizeTelegram (some "https://x/?r=AAAAA") = some "https://x/?r=AAAAA" :=
  ⟨rfl, rfl, rfl, rfl⟩

/-- The trivial second-page oracle: the `a#vd` button never appears, so the
`10Gbps` href is kept. -/
def trivTen : String → TenOutcome := fun _ => .noButton

/-- C2 counterexample: on an anchor with text `"FSL"` the requests-based
classification assigns the `FSL` label but the browser-based one assigns
nothing (its branch requires `"FSL Server"`), and on a Telegram anchor
whose href contains a quote the two rewrites produce different hrefs. -/
theorem browser_classification_differs :
    classifyAnchorsReq [("FSL", some "h1"), ("Telegram", some "https://t.me/a\"b")]
      = [("FSL", "h1"), ("Telegram", "https://t.me/a")]
    ∧ classifyAnchorsBrow trivTen [("FSL", some "h1"), ("Telegram", some "https://t.me/a\"b")]
      = .ok [("Telegram", "https://t.me/a\"b")]
    ∧ dictGet [("FSL", "h1"), ("Telegram", "https://t.me/a")] "FSL" = some "h1"
    ∧ dictGet [("Telegram", "https://t.me/a\"b")] "FSL" = none
    ∧ ("https://t.me/a" : String) ≠ "https://t.me/a\"b" :=
  ⟨rfl, rfl, rfl, rfl, by decide⟩

/-- A compute tier that refuses the first forward, reports healthy on the
first poll, and answers the re-issued extraction request with a 500. -/
def pxRelay500 : PxWorld :=
  ⟨.error .connectError, fun _ => .ok 200, fun _ => .ok (500, "upstream error")⟩

/-- C4 counterexample: with `wait=true`, after the first healthy health
poll the proxy relays the re-issued extraction request's response
verbatim — here a compute-tier 500 reaches the client instead of the 202
waking response. -/
theorem proxy_relays_upstream_500 :
    proxyGet pxRelay500 10 true = .ok (500, "upstream error")
    ∧ (500 : Nat) ≠ 202 :=
  ⟨rfl, by decide⟩

/-- C8: an anchor whose text contains both the `FSL` and `FSLv2` markers is
labeled `FSLv2` and never `FSL`, by first-match priority, in both the
requests-based and the browser-based classification chains. -/
theorem fslv2_priority (t h : String) (m : LinksMap) (o : String → TenOutcome)
    (hh : h ≠ "") (_h1 : strContains t "FSL" = true) (h2 : strContains t "FSLv2" = true) :
    classifyReqStep m (t, some h) = dictSet m "FSLv2" h
    ∧ classifyBrowStep o m (t, some h) = .ok (dictSet m "FSLv2" h)
    ∧ dictGet (dictSet m "FSLv2" h) "FSL" = dictGet m "FSL" := by
  refine ⟨?_, ?_, ?_⟩
  · simp [classifyReqStep, hh, h2]
  · simp [classifyBrowStep, hh, h2]
  · exact dictGet_dictSet_ne m "FSLv2" "FSL" h (by decide)

/-- Witness for C8 at a concrete anchor carrying both markers. -/
theorem fslv2_priority_witness :
    classifyReqStep [] ("FSL FSLv2", some "x") = dictSet [] "FSLv2" "x"
    ∧ classifyBrowStep trivTen [] ("FSL FSLv2", some "x") = .ok (dictSet [] "FSLv2" "x")
    ∧ dictGet (dictSet ([] : LinksMap) "FSLv2" "x") "FSL" = dictGet ([] : LinksMap) "FSL" :=
  fslv2_priority "FSL FSLv2" "x" [] trivTen (by decide) (by decide) (by decide)

theorem runPipeline_meta_url (w : World) (s : Bool) (url : String) (e : Entry)
    (s' : Bool) (tr : Trace) (h : runPipeline w s url = (.ok e, s', tr)) :
    e.meta.url = url := by
  unfold runPipeline at h
  cases hm : w.meta url with
  | error u => rw [hm] at h; simp at h
  | ok sel =>
    rw [hm] at h
    simp only [Prod.mk.injEq] at h
    obtain ⟨he, _⟩ := h
    have : e = (runPipelineOk w s url sel).1 := by
      cases he
      rfl
    rw [this]
    rfl

/-- C10: `process_single_url` operates on the whitespace-stripped URL: two
inputs with equal stripped forms behave identically; a successful result's
key is the stripped URL; and on a cache miss the freshly built entry
carries the stripped URL in its `meta` and is written to the cache under
the stripped key. -/
theorem stripped_url_everywhere :
    (∀ (w : World) (c : Cache) (s : Bool) (u₁ u₂ : String) (f : Bool),
        pyStrip u₁ = pyStrip u₂ →
        processSingleUrl w c s u₁ f = processSingleUrl w c s u₂ f)
    ∧ (∀ (w : World) (c : Cache) (s : Bool) (u : String) (f : Bool) (k : String) (e : Entry),
        (processSingleUrl w c s u f).result = .ok (k, e) → k = pyStrip u)
    ∧ (∀ (w : World) (c : Cache) (s : Bool) (u : String) (f : Bool) (k : String) (e : Entry),
        cacheHit c (pyStrip u) f = none →
        (processSingleUrl w c s u f).result = .ok (k, e) →
        e.meta.url = pyStrip u
        ∧ (processSingleUrl w c s u f).cache = dictSet c (pyStrip u) e) := by
  refine ⟨?_, ?_, ?_⟩
  · intro w c s u₁ u₂ f h
    unfold processSingleUrl
    rw [h]
  · intro w c s u f k e h
    unfold processSingleUrl processStripped at h
    by_cases hne : pyStrip u = ""
    · simp [hne] at h
    · rw [if_neg hne] at h
      cases hc : cacheHit c (pyStrip u) f with
      | some e0 =>
        rw [hc] at h
        simp only [Except.ok.injEq, Prod.mk.injEq] at h
        exact h.1.symm
      | none =>
        rw [hc] at h
        rcases hp : runPipeline w s (pyStrip u) with ⟨res, s', tr⟩
        rw [hp] at h
        cases res with
        | error u0 => simp at h
        | ok entry =>
          simp at h
          exact h.1.symm
  · intro w c s u f k e hmiss h
    unfold processSingleUrl processStripped at h ⊢
    by_cases hne : pyStrip u = ""
    · simp [hne] at h
    · rw [if_neg hne] at h ⊢
      rw [hmiss] at h ⊢
      rcases hp : runPipeline w s (pyStrip u) with ⟨res, s', tr⟩
      rw [hp] at h
      cases res with
      | error u0 => simp at h
      | ok entry =>
        simp at h ⊢
        obtain ⟨hk, hee⟩ := h
        subst hee
        exact ⟨runPipeline_meta_url w s (pyStrip u) _ s' tr hp, rfl⟩

/-- The entry built by `wQuiet` for the stripped URL `"ex"`. -/
def eQuietEx : Entry := ⟨⟨"ex", "", "", none⟩, [], []⟩

/-- Witness for C10: `"  ex "` and `"ex"` behave identically; the result key
and the freshly written cache key and meta URL are the stripped string. -/
theorem stripped_url_everywhere_witness :
    processSingleUrl wQuiet [] false "  ex " false = processSingleUrl wQuiet [] false "ex" false
    ∧ ("ex" : String) = pyStrip "  ex "
    ∧ (eQuietEx.meta.url = pyStrip "  ex "
       ∧ (processSingleUrl wQuiet [] false "  ex " false).cache
           = dictSet [] (pyStrip "  ex ") eQuietEx) :=
  ⟨stripped_url_everywhere.1 wQuiet [] false "  ex " "ex" false rfl,
   stripped_url_everywhere.2.1 wQuiet [] false "  ex " false "ex" eQuietEx rfl,
   stripped_url_everywhere.2.2 wQuiet [] false "  ex " false "ex" eQuietEx rfl rfl⟩

/-- C3: when the stripped URL is a (non-empty) cache key and `force_refresh`
is false, `process_single_url` returns the stored entry unchanged with no
network, engine or cache activity; consequently, after any successful
call, an immediate second call with `force_refresh=false` returns the
identical result with an all-zero activity trace and the same cache and
engine state. -/
theorem cache_idempotence :
    (∀ (w : World) (c : Cache) (s : Bool) (u : String) (e : Entry),
        pyStrip u ≠ "" → dictGet c (pyStrip u) = some e →
        processSingleUrl w c s u false = ⟨.ok (pyStrip u, e), c, s, zeroTrace⟩)
    ∧ (∀ (w : World) (c : Cache) (s : Bool) (u : String) (r : String × Entry)
        (c₁ : Cache) (s₁ : Bool) (t₁ : Trace),
        processSingleUrl w c s u false = ⟨.ok r, c₁, s₁, t₁⟩ →
        processSingleUrl w c₁ s₁ u false = ⟨.ok r, c₁, s₁, zeroTrace⟩) := by
  refine ⟨?_, ?_⟩
  · intro w c s u e hne hl
    unfold processSingleUrl processStripped cacheHit
    simp [hne, hl]
  · intro w c s u r c₁ s₁ t₁ h
    unfold processSingleUrl processStripped cacheHit at h ⊢
    by_cases hne : pyStrip u = ""
    · simp [hne] at h
    · rw [if_neg hne] at h ⊢
      simp only [Bool.false_eq_true, if_false] at h ⊢
      cases hl : dictGet c (pyStrip u) with
      | some e =>
        rw [hl] at h
        simp only [RunOut.mk.injEq, Except.ok.injEq] at h
        obtain ⟨hr, hc1, hs1, _⟩ := h
        subst hc1
        subst hs1
        rw [hl, ← hr]
      | none =>
        rw [hl] at h
        rcases hp : runPipeline w s (pyStrip u) with ⟨res, s', tr⟩
        rw [hp] at h
        cases res with
        | error u0 => simp at h
        | ok entry =>
          simp only [RunOut.mk.injEq, Except.ok.injEq] at h
          obtain ⟨hr, hc1, hs1, _⟩ := h
          subst hc1
          subst hs1
          rw [dictGet_dictSet_self, ← hr]

/-- Witness for C3: a concrete cache hit returns the stored entry with no
activity, and a concrete successful first call is followed by an
activity-free identical second call. -/
theorem cache_idempotence_witness :
    processSingleUrl wQuiet [("k", eQuietEx)] true "k" false
      = ⟨.ok ("k", eQuietEx), [("k", eQuietEx)], true, zeroTrace⟩
    ∧ processSingleUrl wQuiet [("ex", eQuietEx)] true "  ex " false
      = ⟨.ok ("ex", eQuietEx), [("ex", eQuietEx)], true, zeroTrace⟩ :=
  ⟨cache_idempotence.1 wQuiet [("k", eQuietEx)] true "k" eQuietEx (by decide) rfl,
   cache_idempotence.2 wQuiet [] false "  ex " ("ex", eQuietEx) [("ex", eQuietEx)] true
     ⟨3, 1, 0, 1⟩ rfl⟩

theorem resolveStep_inv (w : World) (s : Bool) (res : List String) (tr : Trace)
    (kv : String × String) :
    ∃ (res' : List String) (tr' : Trace),
      resolveStep w (res, s, tr) kv = (res', s, tr')
      ∧ tr'.engineStarts = tr.engineStarts
      ∧ (s = false → tr'.browserResolves = tr.browserResolves) := by
  unfold resolveStep
  by_cases h1 : kv.2 = ""
  · exact ⟨res, tr, by simp [h1], rfl, fun _ => rfl⟩
  · rw [if_neg h1]
    by_cases h2 : (strContains kv.2 "ampproject.org" || strContains kv.2 "bloggingvector.shop/foo/"
        || strContains kv.2 "gamerxyt.com") = true
    · rw [if_pos h2]
      dsimp only
      by_cases h3 : ((getGamerxytRequests w kv.2).isNone && s) = true
      · have hs : s = true := (Bool.and_eq_true _ _ |>.mp h3).2
        rw [if_pos h3]
        subst hs
        cases hn : normalizeTelegram (getGamerxytBrowser w kv.2) with
        | none =>
          exact ⟨res, ⟨tr.netCalls + 1, tr.engineStarts, tr.browserResolves + 1, tr.browserExtracts⟩,
            by simp [hn], rfl, fun hf => by cases hf⟩
        | some hub =>
          by_cases h4 : hub = ""
          · exact ⟨res, ⟨tr.netCalls + 1, tr.engineStarts, tr.browserResolves + 1, tr.browserExtracts⟩,
              by simp [hn, h4], rfl, fun hf => by cases hf⟩
          · exact ⟨res ++ [hub],
              ⟨tr.netCalls + 1, tr.engineStarts, tr.browserResolves + 1, tr.browserExtracts⟩,
              by simp [hn, h4], rfl, fun hf => by cases hf⟩
      · rw [if_neg h3]
        cases hn : normalizeTelegram (getGamerxytRequests w kv.2) with
        | none =>
          exact ⟨res, ⟨tr.netCalls + 1, tr.engineStarts, tr.browserResolves, tr.browserExtracts⟩,
            by simp [hn], rfl, fun _ => rfl⟩
        | some hub =>
          by_cases h4 : hub = ""
          · exact ⟨res, ⟨tr.netCalls + 1, tr.engineStarts, tr.browserResolves, tr.browserExtracts⟩,
              by simp [hn, h4], rfl, fun _ => rfl⟩
          · exact ⟨res ++ [hub],
              ⟨tr.netCalls + 1, tr.engineStarts, tr.browserResolves, tr.browserExtracts⟩,
              by simp [hn, h4], rfl, fun _ => rfl⟩
    · rw [if_neg h2]
      exact ⟨res, tr, rfl, rfl, fun _ => rfl⟩

theorem resolveFold_inv (w : World) (s : Bool) (links : List (String × String)) :
    ∀ (res : List String) (tr : Trace),
      (links.foldl (resolveStep w) (res, s, tr)).2.1 = s
      ∧ (links.foldl (resolveStep w) (res, s, tr)).2.2.engineStarts = tr.engineStarts
      ∧ (s = false →
          (links.foldl (resolveStep w) (res, s, tr)).2.2.browserResolves = tr.browserResolves) := by
  induction links with
  | nil => intro res tr; exact ⟨rfl, rfl, fun _ => rfl⟩
  | cons kv rest ih =>
    intro res tr
    obtain ⟨res', tr', hstep, hes, hbr⟩ := resolveStep_inv w s res tr kv
    simp only [List.foldl_cons, hstep]
    obtain ⟨ha, hb, hc⟩ := ih res' tr'
    refine ⟨ha, by rw [hb, hes], fun hf => by rw [hc hf, hbr hf]⟩

/-- C9: the redirect-resolution step of `process_single_url` never starts
the browser engine (its `ensure_playwright_started` call is reached only
behind the `started` guard, where it is a no-op): for every world and
links dict the engine flag is returned unchanged with zero engine starts,
and when the engine is sleeping no browser resolution is ever invoked. -/
theorem resolution_leaves_engine_state :
    (∀ (w : World) (s : Bool) (links : LinksMap),
        (resolveLinks w s links).2.1 = s
        ∧ (resolveLinks w s links).2.2.engineStarts = 0)
    ∧ (∀ (w : World) (links : LinksMap),
        (resolveLinks w false links).2.2.browserResolves = 0) := by
  refine ⟨fun w s links => ?_, fun w links => ?_⟩
  · obtain ⟨ha, hb, _⟩ := resolveFold_inv w s links [] zeroTrace
    exact ⟨ha, hb⟩
  · obtain ⟨_, _, hc⟩ := resolveFold_inv w false links [] zeroTrace
    exact hc rfl

/-- The value the browser classifier finally assigns for a `10Gbps` anchor
href, as a function of the second-page outcome: the `a#vd` button's href
when found, else the original href. -/
def tenResolve (o : String → TenOutcome) (h : String) : String :=
  match o h with
  | .navFail => h
  | .noButton => h
  | .vdHref v => v

/-- Label-wise agreement of a requests-side and a browser-side links dict:
equal on the four directly copied labels, and the browser's `10Gbps` href
is the second-page resolution of the requests-side one. -/
def classAgree (o : String → TenOutcome) (m mb : LinksMap) : Prop :=
  dictGet mb "FSLv2" = dictGet m "FSLv2"
  ∧ dictGet mb "FSL" = dictGet m "FSL"
  ∧ dictGet mb "PixelServer" = dictGet m "PixelServer"
  ∧ dictGet mb "Telegram" = dictGet m "Telegram"
  ∧ dictGet mb "10Gbps" = (dictGet m "10Gbps").map (tenResolve o)

/-- Anchors on which the two classification chains cannot diverge: any `FSL`
marker comes with `FSLv2` or `FSL Server`, and the two Telegram rewrites
coincide on the href. -/
def anchorTame (a : Anchor) : Prop :=
  (strContains a.1 "FSL" = true →
    strContains a.1 "FSLv2" = true ∨ strContains a.1 "FSL Server" = true)
  ∧ telegramRewriteReq (a.2.getD "") = telegramRewriteBrow (a.2.getD "")

instance (a : Anchor) : Decidable (anchorTame a) := by
  unfold anchorTame
  infer_instance

theorem classAgree_set (o : String → TenOutcome) (m mb : LinksMap) (k v : String)
    (hrel : classAgree o m mb) (hk : k ≠ "10Gbps") :
    classAgree o (dictSet m k v) (dictSet mb k v) := by
  obtain ⟨r1, r2, r3, r4, r5⟩ := hrel
  refine ⟨?_, ?_, ?_, ?_, ?_⟩
  · by_cases h : k = "FSLv2"
    · subst h; rw [dictGet_dictSet_self, dictGet_dictSet_self]
    · rw [dictGet_dictSet_ne _ _ _ _ h, dictGet_dictSet_ne _ _ _ _ h]; exact r1
  · by_cases h : k = "FSL"
    · subst h; rw [dictGet_dictSet_self, dictGet_dictSet_self]
    · rw [dictGet_dictSet_ne _ _ _ _ h, dictGet_dictSet_ne _ _ _ _ h]; exact r2
  · by_cases h : k = "PixelServer"
    · subst h; rw [dictGet_dictSet_self, dictGet_dictSet_self]
    · rw [dictGet_dictSet_ne _ _ _ _ h, dictGet_dictSet_ne _ _ _ _ h]; exact r3
  · by_cases h : k = "Telegram"
    · subst h; rw [dictGet_dictSet_self, dictGet_dictSet_self]
    · rw [dictGet_dictSet_ne _ _ _ _ h, dictGet_dictSet_ne _ _ _ _ h]; exact r4
  · rw [dictGet_dictSet_ne _ _ _ _ hk, dictGet_dictSet_ne _ _ _ _ hk]; exact r5

theorem classAgree_set_ten (o : String → TenOutcome) (m mb : LinksMap) (h : String)
    (hrel : classAgree o m mb) :
    classAgree o (dictSet m "10Gbps" h) (dictSet mb "10Gbps" (tenResolve o h)) := by
  obtain ⟨r1, r2, r3, r4, r5⟩ := hrel
  refine ⟨?_, ?_, ?_, ?_, ?_⟩
  · rw [dictGet_dictSet_ne _ _ _ _ (by decide), dictGet_dictSet_ne _ _ _ _ (by decide)]; exact r1
  · rw [dictGet_dictSet_ne _ _ _ _ (by decide), dictGet_dictSet_ne _ _ _ _ (by decide)]; exact r2
  · rw [dictGet_dictSet_ne _ _ _ _ (by decide), dictGet_dictSet_ne _ _ _ _ (by decide)]; exact r3
  · rw [dictGet_dictSet_ne _ _ _ _ (by decide), dictGet_dictSet_ne _ _ _ _ (by decide)]; exact r4
  · rw [dictGet_dictSet_self, dictGet_dictSet_self]; rfl

theorem classify_step_agree (o : String → TenOutcome) (ho : ∀ h, o h ≠ TenOutcome.navFail)
    (m mb : LinksMap) (a : Anchor) (hrel : classAgree o m mb) (ha : anchorTame a) :
    ∃ mb', classifyBrowStep o mb a = .ok mb' ∧ classAgree o (classifyReqStep m a) mb' := by
  obtain ⟨hfsl, htel⟩ := ha
  by_cases h0 : a.2.getD "" = ""
  · have e1 : classifyReqStep m a = m := by simp [classifyReqStep, h0]
    have e2 : classifyBrowStep o mb a = .ok mb := by simp [classifyBrowStep, h0]
    exact ⟨mb, e2, by rw [e1]; exact hrel⟩
  · by_cases hv2 : strContains a.1 "FSLv2" = true
    · have e1 : classifyReqStep m a = dictSet m "FSLv2" (a.2.getD "") := by
        simp [classifyReqStep, h0, hv2]
      have e2 : classifyBrowStep o mb a = .ok (dictSet mb "FSLv2" (a.2.getD "")) := by
        simp [classifyBrowStep, h0, hv2]
      exact ⟨_, e2, e1 ▸ classAgree_set o m mb _ _ hrel (by decide)⟩
    · by_cases hsrv : strContains a.1 "FSL Server" = true
      · have e1 : classifyReqStep m a = dictSet m "FSL" (a.2.getD "") := by
          simp [classifyReqStep, h0, hv2, hsrv]
        have e2 : classifyBrowStep o mb a = .ok (dictSet mb "FSL" (a.2.getD "")) := by
          simp [classifyBrowStep, h0, hv2, hsrv]
        exact ⟨_, e2, e1 ▸ classAgree_set o m mb _ _ hrel (by decide)⟩
      · have hf : strContains a.1 "FSL" = false := by
          cases hcf : strContains a.1 "FSL" with
          | false => rfl
          | true =>
            rcases hfsl hcf with h | h
            · exact absurd h hv2
            · exact absurd h hsrv
        by_cases h10 : strContains a.1 "10Gbps" = true
        · have e1 : classifyReqStep m a = dictSet m "10Gbps" (a.2.getD "") := by
            simp [classifyReqStep, h0, hv2, hsrv, hf, h10]
          cases ot : o (a.2.getD "") with
          | navFail => exact absurd ot (ho _)
          | noButton =>
            have e2 : classifyBrowStep o mb a = .ok (dictSet mb "10Gbps" (a.2.getD "")) := by
              simp [classifyBrowStep, h0, hv2, hsrv, h10, ot]
            have hres : tenResolve o (a.2.getD "") = a.2.getD "" := by simp [tenResolve, ot]
            refine ⟨_, e2, e1 ▸ ?_⟩
            have := classAgree_set_ten o m mb (a.2.getD "") hrel
            rwa [hres] at this
          | vdHref v =>
            have e2 : classifyBrowStep o mb a = .ok (dictSet mb "10Gbps" v) := by
              simp [classifyBrowStep, h0, hv2, hsrv, h10, ot]
            have hres : tenResolve o (a.2.getD "") = v := by simp [tenResolve, ot]
            refine ⟨_, e2, e1 ▸ ?_⟩
            have := classAgree_set_ten o m mb (a.2.getD "") hrel
            rwa [hres] at this
        · by_cases hpx : strContains a.1 "PixelServer" = true
          · have e1 : classifyReqStep m a = dictSet m "PixelServer" (pixelRewrite (a.2.getD "")) := by
              simp [classifyReqStep, h0, hv2, hsrv, hf, h10, hpx]
            have e2 : classifyBrowStep o mb a
                = .ok (dictSet mb "PixelServer" (pixelRewrite (a.2.getD ""))) := by
              simp [classifyBrowStep, h0, hv2, hsrv, h10, hpx]
            exact ⟨_, e2, e1 ▸ classAgree_set o m mb _ _ hrel (by decide)⟩
          · by_cases htg : strContains a.1 "Telegram" = true
            · have e1 : classifyReqStep m a
                  = dictSet m "Telegram" (telegramRewriteReq (a.2.getD "")) := by
                simp [classifyReqStep, h0, hv2, hsrv, hf, h10, hpx, htg]
              have e2 : classifyBrowStep o mb a
                  = .ok (dictSet mb "Telegram" (telegramRewriteReq (a.2.getD ""))) := by
                rw [htel]
                simp [classifyBrowStep, h0, hv2, hsrv, h10, hpx, htg]
              exact ⟨_, e2, e1 ▸ classAgree_set o m mb _ _ hrel (by decide)⟩
            · have e1 : classifyReqStep m a = m := by
                simp [classifyReqStep, h0, hv2, hsrv, hf, h10, hpx, htg]
              have e2 : classifyBrowStep o mb a = .ok mb := by
                simp [classifyBrowStep, h0, hv2, hsrv, h10, hpx, htg]
              exact ⟨mb, e2, by rw [e1]; exact hrel⟩

theorem classify_fold_agree (o : String → TenOutcome) (ho : ∀ h, o h ≠ TenOutcome.navFail)
    (as : List Anchor) (has : ∀ a ∈ as, anchorTame a) :
    ∀ (m mb : LinksMap), classAgree o m mb →
      ∃ mb', classifyAnchorsBrowFrom o mb as = .ok mb'
        ∧ classAgree o (classifyAnchorsReqFrom m as) mb' := by
  induction as with
  | nil => intro m mb hrel; exact ⟨mb, rfl, hrel⟩
  | cons a rest ih =>
    intro m mb hrel
    obtain ⟨mb', he, hrel'⟩ := classify_step_agree o ho m mb a hrel (has a (by simp))
    obtain ⟨mb'', he2, hrel''⟩ :=
      ih (fun x hx => has x (by simp [hx])) (classifyReqStep m a) mb' hrel'
    refine ⟨mb'', ?_, ?_⟩
    · simp only [classifyAnchorsBrowFrom, he]
      exact he2
    · simp only [classifyAnchorsReqFrom]
      exact hrel''

/-- C2 amended: the browser-engine fallback classification agrees with the
requests-based one label by label — same `FSLv2`, `FSL`, `PixelServer` and
`Telegram` assignments and the `10Gbps` href further resolved through the
second page — provided no anchor text carries a bare `FSL` marker without
`FSLv2`/`FSL Server` (the browser chain has no bare-`FSL` branch), the two
Telegram href rewrites agree on the anchor's href (their regex character
classes differ), and no second-page navigation fails. -/
theorem classification_refinement (as : List Anchor) (o : String → TenOutcome)
    (ho : ∀ h, o h ≠ TenOutcome.navFail) (has : ∀ a ∈ as, anchorTame a) :
    (classifyAnchorsBrow o as).map (fun mb => dictGet mb "FSLv2")
      = .ok (dictGet (classifyAnchorsReq as) "FSLv2")
    ∧ (classifyAnchorsBrow o as).map (fun mb => dictGet mb "FSL")
      = .ok (dictGet (classifyAnchorsReq as) "FSL")
    ∧ (classifyAnchorsBrow o as).map (fun mb => dictGet mb "PixelServer")
      = .ok (dictGet (classifyAnchorsReq as) "PixelServer")
    ∧ (classifyAnchorsBrow o as).map (fun mb => dictGet mb "Telegram")
      = .ok (dictGet (classifyAnchorsReq as) "Telegram")
    ∧ (classifyAnchorsBrow o as).map (fun mb => dictGet mb "10Gbps")
      = .ok ((dictGet (classifyAnchorsReq as) "10Gbps").map (tenResolve o)) := by
  obtain ⟨mb', he, hrel⟩ :=
    classify_fold_agree o ho as has [] [] ⟨rfl, rfl, rfl, rfl, rfl⟩
  unfold classifyAnchorsBrow classifyAnchorsReq
  rw [he]
  obtain ⟨r1, r2, r3, r4, r5⟩ := hrel
  exact ⟨by rw [Except.map, r1], by rw [Except.map, r2], by rw [Except.map, r3],
    by rw [Except.map, r4], by rw [Except.map, r5]⟩

/-- A concrete anchor list satisfying the amended claim's hypotheses, with
one anchor of every label. -/
def tameAnchors : List Anchor :=
  [("FSLv2 dl", some "a"), ("FSL Server", some "b"), ("10Gbps fast", some "c"),
   ("PixelServer", some "https://s/u/Tok1"), ("Telegram", some "https://t.me/chan")]

/-- Witness for the amended C2 at a concrete anchor list and oracle. -/
theorem classification_refinement_witness :
    (classifyAnchorsBrow trivTen tameAnchors).map (fun mb => dictGet mb "FSLv2")
      = .ok (dictGet (classifyAnchorsReq tameAnchors) "FSLv2")
    ∧ (classifyAnchorsBrow trivTen tameAnchors).map (fun mb => dictGet mb "FSL")
      = .ok (dictGet (classifyAnchorsReq tameAnchors) "FSL")
    ∧ (classifyAnchorsBrow trivTen tameAnchors).map (fun mb => dictGet mb "PixelServer")
      = .ok (dictGet (classifyAnchorsReq tameAnchors) "PixelServer")
    ∧ (classifyAnchorsBrow trivTen tameAnchors).map (fun mb => dictGet mb "Telegram")
      = .ok (dictGet (classifyAnchorsReq tameAnchors) "Telegram")
    ∧ (classifyAnchorsBrow trivTen tameAnchors).map (fun mb => dictGet mb "10Gbps")
      = .ok ((dictGet (classifyAnchorsReq tameAnchors) "10Gbps").map (tenResolve trivTen)) :=
  classification_refinement tameAnchors trivTen (fun h => by simp [trivTen]) (by decide)

theorem waitLoop_cases (w : PxWorld) :
    ∀ (fuel i : Nat), waitLoop w i fuel = wakingResp
      ∨ ∃ j r, w.health j = .ok 200 ∧ w.retry j = .ok r ∧ waitLoop w i fuel = r := by
  intro fuel
  induction fuel with
  | zero => intro i; exact .inl rfl
  | succ n ih =>
    intro i
    cases hh : w.health i with
    | error u =>
      rcases ih (i + 1) with h1 | ⟨j, r, ha, hb, hc⟩
      · left; simp only [waitLoop, hh]; exact h1
      · right; exact ⟨j, r, ha, hb, by simp only [waitLoop, hh]; exact hc⟩
    | ok code =>
      by_cases hc200 : code = 200
      · subst hc200
        cases hr : w.retry i with
        | error u =>
          rcases ih (i + 1) with h1 | ⟨j, r, ha, hb, hc⟩
          · left; simp only [waitLoop, hh, hr]; exact h1
          · right; exact ⟨j, r, ha, hb, by simp only [waitLoop, hh, hr]; exact hc⟩
        | ok r =>
          right; exact ⟨i, r, hh, hr, by simp [waitLoop, hh, hr]⟩
      · rcases ih (i + 1) with h1 | ⟨j, r, ha, hb, hcc⟩
        · left; simp only [waitLoop, hh, hc200, if_false]; exact h1
        · right
          refine ⟨j, r, ha, hb, ?_⟩
          simp only [waitLoop, hh, hc200, if_false]
          exact hcc

/-- C4 amended: the edge proxy normalizes compute-tier unavailability into
the 202 waking response in the fast path and the `wait=false` path
(relaying only a 200 fast response verbatim), provided the fast forward
does not raise an `httpx` exception outside the caught
`ConnectError`/`ReadTimeout` pair; in the `wait=true` path the only other
possible response is the verbatim relay — including any 5xx — of the
extraction request re-issued at the first healthy health poll. -/
theorem proxy_waking_normalization (w : PxWorld) (n : Nat)
    (hf : w.fast ≠ .error HxErr.otherErr) :
    (proxyGet w n false = .ok wakingResp
      ∨ ∃ b, w.fast = .ok (200, b) ∧ proxyGet w n false = .ok (200, b))
    ∧ (proxyGet w n true = .ok wakingResp
      ∨ (∃ b, w.fast = .ok (200, b) ∧ proxyGet w n true = .ok (200, b))
      ∨ (∃ i r, w.health i = .ok 200 ∧ w.retry i = .ok r ∧ proxyGet w n true = .ok r)) := by
  constructor
  · cases hfa : w.fast with
    | error e =>
      cases e with
      | connectError => left; simp [proxyGet, hfa, afterFast]
      | readTimeout => left; simp [proxyGet, hfa, afterFast]
      | otherErr => exact absurd hfa hf
    | ok cb =>
      obtain ⟨code, body⟩ := cb
      by_cases hc : code = 200
      · subst hc
        right
        exact ⟨body, rfl, by simp [proxyGet, hfa]⟩
      · left; simp [proxyGet, hfa, hc, afterFast]
  · have hloop := waitLoop_cases w n 0
    have hAfter : afterFast w n true = .ok (waitLoop w 0 n) := rfl
    cases hfa : w.fast with
    | error e =>
      cases e with
      | connectError =>
        have hres : proxyGet w n true = .ok (waitLoop w 0 n) := by
          simp [proxyGet, hfa, hAfter]
        rcases hloop with h1 | ⟨j, r, ha, hb, hcc⟩
        · left; rw [hres, h1]
        · right; right; exact ⟨j, r, ha, hb, by rw [hres, hcc]⟩
      | readTimeout =>
        have hres : proxyGet w n true = .ok (waitLoop w 0 n) := by
          simp [proxyGet, hfa, hAfter]
        rcases hloop with h1 | ⟨j, r, ha, hb, hcc⟩
        · left; rw [hres, h1]
        · right; right; exact ⟨j, r, ha, hb, by rw [hres, hcc]⟩
      | otherErr => exact absurd hfa hf
    | ok cb =>
      obtain ⟨code, body⟩ := cb
      by_cases hc : code = 200
      · subst hc
        right; left
        exact ⟨body, rfl, by simp [proxyGet, hfa]⟩
      · have hres : proxyGet w n true = .ok (waitLoop w 0 n) := by
          simp [proxyGet, hfa, hc, hAfter]
        rcases hloop with h1 | ⟨j, r, ha, hb, hcc⟩
        · left; rw [hres, h1]
        · right; right; exact ⟨j, r, ha, hb, by rw [hres, hcc]⟩

/-- A compute tier whose extraction endpoint answers 503 and whose health
endpoint always raises. -/
def pxAsleep : PxWorld := ⟨.ok (503, "sleeping"), fun _ => .error (), fun _ => .error ()⟩

/-- Witness for the amended C4: against a sleeping compute tier both proxy
modes produce the 202 waking response. -/
theorem proxy_waking_normalization_witness :
    proxyGet pxAsleep 3 false = .ok wakingResp ∧ proxyGet pxAsleep 3 true = .ok wakingResp := by
  have h := proxy_waking_normalization pxAsleep 3 (by simp [pxAsleep])
  constructor
  · rcases h.1 with h1 | ⟨b, hb, _⟩
    · exact h1
    · exact absurd hb (by simp [pxAsleep])
  · rcases h.2 with h1 | ⟨b, hb, _⟩ | ⟨i, r, hi, _, _⟩
    · exact h1
    · exact absurd hb (by simp [pxAsleep])
    · exact absurd hi (by simp [pxAsleep])
